import Mathlib

/-!
Verification of the report-generation engine in `src/main.py`.

The engine models a spreadsheet workbook: `add_worksheet` writes a tabular
Dataset into a sheet (header row then data rows), `format_worksheet` applies
the styling policy (header style, borders, column widths), `add_chart` binds
bar/line charts, `ReportAnalyzer` computes summary statistics, top-N rankings
and monthly trend figures, and `generate_complete_report` orchestrates the
whole pipeline and reports success or failure as a boolean.

The embedding below translates those functions into executable Lean
definitions over an explicit data model:
* a pandas `DataFrame` becomes `Dataset` (ordered column names plus rows of
  typed cell values);
* an `openpyxl` worksheet becomes `Worksheet`: a row-major grid of cells
  (the program only ever writes dense rectangular blocks starting at A1, plus
  the freeform summary sheet whose unwritten rows appear as empty rows),
  column widths, merged ranges and bound charts;
* numeric cells are embedded as integers (every concrete value exercised by
  the specification's scenarios is an integer, so pandas float arithmetic on
  them is exact) and derived ratios (growth percentages, means) as rationals;
* Python exceptions at the persistence boundary become an `Except` value
  supplied by the caller, mirroring the spec's external Persistence
  collaborator.
-/

namespace ReportGen

/-- A Dataset cell value: string, integer, date (year, month, day),
`null` (Python `None` / pandas `NaN`), or `blob`, an opaque object whose
stringification raises — the case guarded by the `try/except` in
`format_worksheet`'s width loop. -/
inductive Value where
  | str (s : String)
  | int (n : Int)
  | date (y m d : Nat)
  | null
  | blob
deriving DecidableEq, Repr

/-- The Dataset input contract: ordered column names and ordered rows.
Invariant (from the spec's data model): every row has one value per declared
column, in declared order; theorems that need it take it as a hypothesis. -/
structure Dataset where
  columns : List String
  rows : List (List Value)
deriving DecidableEq, Repr

/-- Value of column `c` in row `r` of dataset `D` (first matching column,
`null` when the column is absent — callers guard membership first, matching
the `if column in self.data.columns` guards in `main.py`). -/
def getCell (D : Dataset) (r : List Value) (c : String) : Value :=
  match D.columns.findIdx? (fun x => x == c) with
  | some i => r.getD i Value.null
  | none => Value.null

/-- Cell styling state tracked by the formatter: font, fill, alignment and
border, mirroring the `openpyxl` style attributes `format_worksheet` sets. -/
structure CellStyle where
  bold : Bool := false
  fontColor : Option String := none
  fontSize : Option Nat := none
  fillColor : Option String := none
  horizontal : Option String := none
  vertical : Option String := none
  border : Bool := false
deriving DecidableEq, Repr

/-- A worksheet cell: value plus styling state. -/
structure Cell where
  value : Value
  style : CellStyle
deriving DecidableEq, Repr

/-- A freshly written cell (default `openpyxl` style: no bold, no fill,
no border). -/
def plainCell (v : Value) : Cell := { value := v, style := {} }

/-- Chart source range, as built by `Reference(ws, min_col=1, min_row=1,
max_col=2, max_row=ws.max_row)`. -/
structure ChartRef where
  min_col : Nat
  min_row : Nat
  max_col : Nat
  max_row : Nat
deriving DecidableEq, Repr

/-- Supported chart kinds (`BarChart` / `LineChart`). -/
inductive ChartKind where
  | bar
  | line
deriving DecidableEq, Repr

/-- A chart bound to a worksheet; `anchorRow`/`anchorCol` are the 1-based
coordinates of the anchor cell (`"E2"` is row 2, column 5). -/
structure Chart where
  kind : ChartKind
  title : String
  style : Nat
  data : ChartRef
  titles_from_data : Bool
  anchorRow : Nat
  anchorCol : Nat
deriving DecidableEq, Repr

/-- A worksheet: name, row-major cell grid (row 1 first), column widths
(1-based column index paired with width), merged ranges, bound charts. -/
structure Worksheet where
  name : String
  grid : List (List Cell)
  colWidths : List (Nat × Nat)
  merges : List String
  charts : List Chart
deriving DecidableEq, Repr

/-- `ExcelReportGenerator.add_worksheet`: write the column names as row 1 and
each data row starting at row 2, preserving column order. -/
def add_worksheet (name : String) (data : Dataset) : Worksheet :=
  { name := name
    grid := data.columns.map (fun t => plainCell (Value.str t)) ::
            data.rows.map (fun r => r.map plainCell)
    colWidths := []
    merges := []
    charts := [] }

/-- Length of the Python `str()` rendering of a cell value, `none` when
stringification raises (the `blob` case).  Integers render as decimal
(`str(125) = "125"`), dates as a 19-character timestamp
(`"2024-01-15 00:00:00"`), `None` as the 4-character `"None"`. -/
def pyStrLen : Value → Option Nat
  | Value.str s => some s.length
  | Value.int n => some (toString n).length
  | Value.date _ _ _ => some 19
  | Value.null => some 4
  | Value.blob => none

/-- Length used by the width loop: an unstringifiable cell contributes
nothing (the `except: pass` leaves `max_length` unchanged, which with the
initial `max_length = 0` is the same as contributing length 0). -/
def valLen (v : Value) : Nat := (pyStrLen v).getD 0

/-- Number of columns of a grid of values (`ws.max_column`): the widest
written row. -/
def numColsV (vals : List (List Value)) : Nat :=
  vals.foldr (fun r m => max r.length m) 0

/-- The cells of 0-based column `j`, top to bottom (`for cell in column`). -/
def colCellsV (vals : List (List Value)) (j : Nat) : List Value :=
  vals.filterMap (fun r => r.get? j)

/-- `max_length` computed by the width loop for 0-based column `j`. -/
def colMaxLen (vals : List (List Value)) (j : Nat) : Nat :=
  (colCellsV vals j).foldr (fun v m => max (valLen v) m) 0

/-- The column-width map written by `format_worksheet`: for every column,
`adjusted_width = min(max_length + 2, 50)` keyed by 1-based column index. -/
def computeWidths (vals : List (List Value)) : List (Nat × Nat) :=
  (List.range (numColsV vals)).map (fun j => (j + 1, min (colMaxLen vals j + 2) 50))

/-- The grid's values (column widths depend only on these). -/
def gridVals (g : List (List Cell)) : List (List Value) :=
  g.map (fun r => r.map Cell.value)

/-- Header styling (`Font(bold=True, color="FFFFFF")`,
`PatternFill("366092")`, centered alignment). -/
def headerStyle (s : CellStyle) : CellStyle :=
  { s with bold := true, fontColor := some "FFFFFF",
           fillColor := some "366092",
           horizontal := some "center", vertical := some "center" }

/-- Border styling (`thin_border` on all four sides). -/
def borderStyle (s : CellStyle) : CellStyle := { s with border := true }

/-- Apply a style transformation to a whole cell. -/
def styleCell (f : CellStyle → CellStyle) (c : Cell) : Cell :=
  { c with style := f c.style }

/-- Apply the header font/fill/alignment to every cell of row 1
(`for cell in ws[1]`). -/
def styleHeaderRow (g : List (List Cell)) : List (List Cell) :=
  match g with
  | [] => []
  | r :: rs => r.map (styleCell headerStyle) :: rs

/-- Apply the thin border to every cell (`for row in ws.iter_rows(): for cell
in row: cell.border = thin_border`). -/
def borderAll (g : List (List Cell)) : List (List Cell) :=
  g.map (fun row => row.map (styleCell borderStyle))

/-- `ExcelReportGenerator.format_worksheet`: style the header row, set every
column's width to `min(max_length + 2, 50)`, then put a thin border on every
cell.  Values, merges and charts are untouched. -/
def format_worksheet (ws : Worksheet) : Worksheet :=
  let g1 := styleHeaderRow ws.grid
  { ws with
    grid := borderAll g1
    colWidths := computeWidths (gridVals g1) }

/-- Width assigned to 1-based column `j` of a worksheet, if any. -/
def colWidth (ws : Worksheet) (j : Nat) : Option Nat :=
  (ws.colWidths.find? (fun p => p.1 == j)).map (fun p => p.2)

/-- Constructor tag used to order values of different types (pandas sorts
group keys; keys of one report-relevant dataset all share one type, so only
the same-type cases below matter — the cross-type ordering is an arbitrary
total extension). -/
def valueTag : Value → Nat
  | Value.null => 0
  | Value.int _ => 1
  | Value.date _ _ _ => 2
  | Value.str _ => 3
  | Value.blob => 4

/-- Lexicographic strict order on character lists by code point — Python's
string `<`. -/
def charListLt : List Char → List Char → Bool
  | _, [] => false
  | [], _ :: _ => true
  | a :: as, b :: bs =>
    if a.toNat < b.toNat then true
    else if b.toNat < a.toNat then false
    else charListLt as bs

/-- Python string `<`. -/
def strLtB (a b : String) : Bool := charListLt a.data b.data

/-- Strict total order on cell values: Python `<` within one type
(lexicographic for strings and dates, numeric for integers), constructor
tag across types. -/
def valueLtB : Value → Value → Bool
  | Value.int a, Value.int b => decide (a < b)
  | Value.str a, Value.str b => strLtB a b
  | Value.date y1 m1 d1, Value.date y2 m2 d2 =>
    decide (y1 < y2 ∨ (y1 = y2 ∧ (m1 < m2 ∨ (m1 = m2 ∧ d1 < d2))))
  | a, b => decide (valueTag a < valueTag b)

/-- Non-strict companion of `valueLtB`. -/
def valueLeB (a b : Value) : Bool := !valueLtB b a

/-- Insert `x` into `l` before the first element `y` with `le x y` — the
insertion step of a stable insertion sort. -/
def insLe {α : Type _} (le : α → α → Bool) (x : α) : List α → List α
  | [] => [x]
  | y :: ys => if le x y then x :: y :: ys else y :: insLe le x ys

/-- Stable insertion sort by the boolean relation `le` (ties keep their
input order), modelling pandas' stable sorts. -/
def sortLe {α : Type _} (le : α → α → Bool) : List α → List α
  | [] => []
  | x :: xs => insLe le x (sortLe le xs)

/-- Sortedness invariant of `sortLe` on an input that was `Pairwise R`:
consecutive outputs are `le`-ordered, and on ties (`le` both ways) they
keep the input relation `R` — this is what "stable" buys. -/
def stableLe {α : Type _} (le : α → α → Bool) (R : α → α → Prop) (a b : α) : Prop :=
  le a b = true ∧ (le b a = true → R a b)

/-- Group key of a row (`groupby(column)`). -/
def rowKey (D : Dataset) (c : String) (r : List Value) : Value := getCell D r c

/-- Numeric reading of a cell for aggregation; pandas' `sum` skips `NaN`
(and the report's value columns are numeric), so non-integers contribute 0. -/
def toNum : Value → Int
  | Value.int n => n
  | _ => 0

/-- Sum of `vc` over the rows whose `gc`-key equals `k`
(`groupby(gc)[vc].sum()` for one group). -/
def groupSum (D : Dataset) (gc vc : String) (k : Value) : Int :=
  ((D.rows.filter (fun r => rowKey D gc r == k)).map
    (fun r => toNum (getCell D r vc))).sum

/-- Descending-by-summed-value comparison used to model `nlargest`
(equal sums compare `true` both ways, so the stable sort keeps their
`groupby` key order — pandas `nlargest(keep='first')` on the key-sorted
series). -/
def valDesc (a b : Value × Int) : Bool := decide (b.2 ≤ a.2)

/-- `ReportAnalyzer.get_top_performers`: group rows by `column`, sum
`value_column` per group (null keys dropped, as `groupby` drops `NaN`
keys), rank by descending sum — groups are key-sorted by `groupby`
(`sort=True` default) and `nlargest` then orders by descending sum keeping
first occurrences on ties — and truncate to `top_n`.  Empty when either
column is absent. -/
def get_top_performers (D : Dataset) (column value_column : String) (top_n : Nat) :
    List (Value × Int) :=
  if column ∈ D.columns ∧ value_column ∈ D.columns then
    let keys := ((D.rows.map (rowKey D column)).filter
      (fun k => !(k == Value.null))).dedup
    let sums := (sortLe valueLeB keys).map
      (fun k => (k, groupSum D column value_column k))
    (sortLe valDesc sums).take top_n
  else []

/-- Date reading of a cell. -/
def toDate : Value → Option (Nat × Nat × Nat)
  | Value.date y m d => some (y, m, d)
  | _ => none

/-- Linear month index of a calendar month (`freq='M'` bucket label). -/
def monthIdx (y m : Nat) : Nat := y * 12 + (m - 1)

/-- Month bucket of a row, `none` when its date cell is not a date
(`NaT`/null rows are dropped by the grouper). -/
def rowMonth (D : Dataset) (dc : String) (r : List Value) : Option Nat :=
  (toDate (getCell D r dc)).map (fun t => monthIdx t.1 t.2.1)

/-- All month buckets that actually occur in the dataset (with
multiplicity; only its min/max and membership matter). -/
def monthsPresent (D : Dataset) (dc : String) : List Nat :=
  D.rows.filterMap (rowMonth D dc)

/-- Sum of `vc` over the rows falling in month bucket `m`. -/
def monthSum (D : Dataset) (dc vc : String) (m : Nat) : Int :=
  ((D.rows.filter (fun r => rowMonth D dc r == some m)).map
    (fun r => toNum (getCell D r vc))).sum

/-- Minimum of a list of naturals, `none` when empty. -/
def minNat? : List Nat → Option Nat
  | [] => none
  | x :: xs => match minNat? xs with
    | none => some x
    | some m => some (min x m)

/-- Maximum of a list of naturals, `none` when empty. -/
def maxNat? : List Nat → Option Nat
  | [] => none
  | x :: xs => match maxNat? xs with
    | none => some x
    | some m => some (max x m)

/-- Percent changes against the previous entry (`pct_change() * 100`):
every entry after the first carries `(cur - prev) / prev * 100`.  (pandas
produces an IEEE infinity when `prev` is exactly 0; rational division by
zero yields 0 there instead — no claim exercises that case.) -/
def growthTail (prev : Int) : List (Nat × Int) → List (Nat × Int × Option Rat)
  | [] => []
  | (m, s) :: rest =>
    (m, s, some ((((s : Rat) - (prev : Rat)) / (prev : Rat)) * 100)) :: growthTail s rest

/-- Attach growth rates: the first bucket has no predecessor, so its rate
is null. -/
def withGrowth : List (Nat × Int) → List (Nat × Int × Option Rat)
  | [] => []
  | (m, s) :: rest => (m, s, none) :: growthTail s rest

/-- `ReportAnalyzer.get_trend_analysis`: bucket rows with
`pd.Grouper(key=date_col, freq='M')` — which, like `resample`, produces one
bucket for EVERY calendar month from the earliest to the latest month
present, empty months summing to 0 — sum `value_col` per bucket, then attach
`pct_change() * 100`.  Empty when either column is absent or no row has a
date. -/
def get_trend_analysis (D : Dataset) (date_col value_col : String) :
    List (Nat × Int × Option Rat) :=
  if date_col ∈ D.columns ∧ value_col ∈ D.columns then
    match minNat? (monthsPresent D date_col), maxNat? (monthsPresent D date_col) with
    | some lo, some hi =>
      withGrowth ((List.range' lo (hi + 1 - lo)).map
        (fun m => (m, monthSum D date_col value_col m)))
    | _, _ => []
  else []

/-- Is a cell value one a numeric pandas column can hold? -/
def isNumLike : Value → Bool
  | Value.int _ => true
  | Value.null => true
  | _ => false

/-- A 0-based column is numeric (would be selected by
`select_dtypes(include=[np.number])`) when all of its cells are numeric or
null and at least one is an actual number. -/
def isNumericCol (D : Dataset) (j : Nat) : Bool :=
  (colCellsV D.rows j).all isNumLike &&
    (colCellsV D.rows j).any (fun v => match v with | Value.int _ => true | _ => false)

/-- The 0-based indices of the numeric columns, in declared order. -/
def numericColIdxs (D : Dataset) : List Nat :=
  (List.range D.columns.length).filter (fun j => isNumericCol D j)

/-- Non-strict lexicographic order on dates. -/
def dateLeB (a b : Nat × Nat × Nat) : Bool :=
  decide (a.1 < b.1 ∨ (a.1 = b.1 ∧ (a.2.1 < b.2.1 ∨ (a.2.1 = b.2.1 ∧ a.2.2 ≤ b.2.2))))

/-- Earliest of a list of dates (`Series.min`, `NaN` skipped), `none` when
empty. -/
def dateMin? : List (Nat × Nat × Nat) → Option (Nat × Nat × Nat)
  | [] => none
  | x :: xs => match dateMin? xs with
    | none => some x
    | some m => some (if dateLeB x m then x else m)

/-- Latest of a list of dates (`Series.max`), `none` when empty. -/
def dateMax? : List (Nat × Nat × Nat) → Option (Nat × Nat × Nat)
  | [] => none
  | x :: xs => match dateMax? xs with
    | none => some x
    | some m => some (if dateLeB m x then x else m)

/-- The numeric values of 0-based column `j`. -/
def colNumbers (D : Dataset) (j : Nat) : List Int :=
  (colCellsV D.rows j).filterMap
    (fun v => match v with | Value.int n => some n | _ => none)

/-- Per-numeric-column descriptive statistics: (column name, non-null
count, sum, mean).  `describe()` additionally reports std and quartiles,
which involve floating-point square roots and interpolation; no claim
depends on them, so the model keeps the exactly representable moments. -/
def describeCol (D : Dataset) (j : Nat) : String × Nat × Int × Rat :=
  let nums := colNumbers D j
  (D.columns.getD j "", nums.length, nums.sum, (nums.sum : Rat) / (nums.length : Rat))

/-- `ReportAnalyzer.get_summary_stats` result: total record count, min/max
of the designated date column `'data'` (both `none` when the column is
missing or holds no dates — pandas returns `NaT` there), and the
per-numeric-column block (empty when no numeric columns exist). -/
structure SummaryStats where
  total_records : Nat
  date_start : Option (Nat × Nat × Nat)
  date_end : Option (Nat × Nat × Nat)
  numeric_summary : List (String × Nat × Int × Rat)
deriving DecidableEq, Repr

/-- `ReportAnalyzer.get_summary_stats`.  Total by construction: every
missing-field condition degrades to an empty field, never an error. -/
def get_summary_stats (D : Dataset) : SummaryStats :=
  let dates := match D.columns.findIdx? (fun c => c == "data") with
    | some j => (colCellsV D.rows j).filterMap toDate
    | none => []
  { total_records := D.rows.length
    date_start := if "data" ∈ D.columns then dateMin? dates else none
    date_end := if "data" ∈ D.columns then dateMax? dates else none
    numeric_summary := (numericColIdxs D).map (fun j => describeCol D j) }

/-- The chart kinds `add_chart` dispatches on: `'bar'` and `'line'`;
anything else hits the bare `return`. -/
def mkChartKind : String → Option ChartKind
  | "bar" => some ChartKind.bar
  | "line" => some ChartKind.line
  | _ => none

/-- `ws.max_row`: number of populated rows. -/
def wsMaxRow (ws : Worksheet) : Nat := ws.grid.length

/-- `ExcelReportGenerator.add_chart`: no-op for an unknown kind; otherwise
bind a chart whose source range is always columns 1–2, rows 1 through
`ws.max_row` (the `data_range` argument is never read) and whose anchor is
always cell `"E2"` — row 2, column 5. -/
def add_chart (ws : Worksheet) (chart_type : String) (data_range : String)
    (chart_title : String) : Worksheet :=
  match mkChartKind chart_type with
  | none => ws
  | some k =>
    { ws with charts := ws.charts ++
        [{ kind := k, title := chart_title, style := 10,
           data := { min_col := 1, min_row := 1, max_col := 2, max_row := wsMaxRow ws },
           titles_from_data := true, anchorRow := 2, anchorCol := 5 }] }

/-- Does the sheet hold a written cell at 1-based (row, column)? -/
def populatedAt (ws : Worksheet) (r c : Nat) : Bool :=
  ((ws.grid.get? (r - 1)).bind (fun row => row.get? (c - 1))).isSome

/-- Value of the cell at 1-based (row, column), if written. -/
def cellValueAt (ws : Worksheet) (r c : Nat) : Option Value :=
  (((ws.grid.get? (r - 1)).bind (fun row => row.get? (c - 1))).map Cell.value)

/-- `ReportConfig` of `main.py`. -/
structure ReportConfig where
  title : String
  output_path : String
  include_charts : Bool := true
  include_summary : Bool := true
  auto_format : Bool := true
  company_name : String := "Empresa XYZ"
deriving DecidableEq, Repr

/-- The assembled workbook: its sheets in creation order. -/
structure Workbook where
  sheets : List Worksheet
deriving DecidableEq, Repr

/-- Two-digit zero-padded rendering (`%d` / `%m`). -/
def pad2 (n : Nat) : String := if n < 10 then "0" ++ toString n else toString n

/-- `strftime('%d/%m/%Y')`. -/
def fmtDate (t : Nat × Nat × Nat) : String :=
  pad2 t.2.2 ++ "/" ++ pad2 t.2.1 ++ "/" ++ toString t.1

/-- `ExcelReportGenerator.add_summary_sheet`: the "Resumo Executivo" sheet —
title cell (16pt bold, merged A1:E1), a generation-timestamp line at row 3,
the bold "ESTATÍSTICAS GERAIS" label at row 5, the total-record count at
row 6 and, when the summary has a date range, the period line at row 7;
rows 2 and 4 are left unwritten.  The sheet is then formatted
unconditionally.  `now` stands for `datetime.now().strftime(...)`. -/
def add_summary_sheet (cfg : ReportConfig) (now : String) (D : Dataset) : Worksheet :=
  let s := get_summary_stats D
  let baseRows : List (List Cell) :=
    [[{ value := Value.str ("RELATÓRIO EXECUTIVO - " ++ cfg.company_name),
        style := { fontSize := some 16, bold := true } }],
     [],
     [plainCell (Value.str ("Gerado em: " ++ now))],
     [],
     [{ value := Value.str "ESTATÍSTICAS GERAIS", style := { bold := true } }],
     [plainCell (Value.str ("Total de Registros: " ++ toString s.total_records))]]
  let allRows := match s.date_start, s.date_end with
    | some a, some b =>
      baseRows ++ [[plainCell (Value.str ("Período: " ++ fmtDate a ++ " a " ++ fmtDate b))]]
    | _, _ => baseRows
  format_worksheet
    { name := "Resumo Executivo", grid := allRows, colWidths := [],
      merges := ["A1:E1"], charts := [] }

/-- The workbook `generate_complete_report` assembles before saving: one
sheet per supplied (name, dataset) pair in order — formatted when
`auto_format` — then, when `include_summary` is on and at least one dataset
was supplied, the summary sheet computed from the FIRST-supplied dataset. -/
def buildWorkbook (cfg : ReportConfig) (now : String)
    (data_dict : List (String × Dataset)) : Workbook :=
  let dataSheets := data_dict.map (fun p =>
    let ws := add_worksheet p.1 p.2
    if cfg.auto_format then format_worksheet ws else ws)
  match data_dict with
  | [] => { sheets := dataSheets }
  | (_, d0) :: _ =>
    if cfg.include_summary then
      { sheets := dataSheets ++ [add_summary_sheet cfg now d0] }
    else
      { sheets := dataSheets }

/-- `ExcelReportGenerator.generate_complete_report`: assemble the workbook,
hand it to the persistence collaborator (`save`, abstracting
`workbook.save` plus the parent-directory creation, which may fail with an
exception modelled as `Except.error`), and catch everything: the caller
only ever sees `true` (success) or `false` (failure). -/
def generate_complete_report (cfg : ReportConfig) (now : String)
    (save : Workbook → String → Except String Unit)
    (data_dict : List (String × Dataset)) : Bool :=
  match save (buildWorkbook cfg now data_dict) cfg.output_path with
  | Except.ok _ => true
  | Except.error _ => false

/-- Fixture: the ranking scenario dataset of the spec's testable
properties. -/
def scenarioRanking : Dataset :=
  ⟨["region", "amount"],
   [[Value.str "North", Value.int 100], [Value.str "South", Value.int 50],
    [Value.str "North", Value.int 25]]⟩

/-- Fixture: two groups tied at 10, group "B" encountered before "A". -/
def tieRanking : Dataset :=
  ⟨["region", "amount"],
   [[Value.str "B", Value.int 10], [Value.str "A", Value.int 10]]⟩

/-- Fixture: dates in January and March 2024 only — February has no rows. -/
def gapTrend : Dataset :=
  ⟨["data", "valor"],
   [[Value.date 2024 1 15, Value.int 100], [Value.date 2024 3 10, Value.int 50]]⟩

/-- Fixture: the spec's trend scenario — 100 in month one, 150 in the next
calendar month. -/
def twoMonths : Dataset :=
  ⟨["data", "valor"],
   [[Value.date 2024 1 15, Value.int 100], [Value.date 2024 2 10, Value.int 150]]⟩

/-- Fixture: five columns and one data row, so cell E2 (row 2, column 5) is
populated. -/
def fiveColumns : Dataset :=
  ⟨["c1", "c2", "c3", "c4", "c5"],
   [[Value.int 1, Value.int 2, Value.int 3, Value.int 4, Value.int 5]]⟩

end ReportGen

namespace ReportGen

/-- C1. `add_worksheet` writes the dataset's column names as row 1 in
declared order and each data row starting at row 2 preserving column order;
under the Dataset row-alignment invariant the resulting sheet has exactly
`len(D.rows) + 1` rows and `len(D.columns)` columns. -/
theorem populate_shape (name : String) (D : Dataset)
    (hrect : ∀ r ∈ D.rows, r.length = D.columns.length) :
    (add_worksheet name D).grid.length = D.rows.length + 1 ∧
    (∀ row ∈ (add_worksheet name D).grid, row.length = D.columns.length) ∧
    (add_worksheet name D).grid.map (fun row => row.map Cell.value) =
      (D.columns.map Value.str) :: D.rows := by
  refine ⟨by simp [add_worksheet], ?_, ?_⟩
  · intro row hrow
    simp only [add_worksheet, List.mem_cons, List.mem_map] at hrow
    rcases hrow with h | ⟨r, hr, rfl⟩
    · subst h; simp
    · simpa using hrect r hr
  · simp [add_worksheet, List.map_map, Function.comp_def, plainCell, List.map_id]

/-- Witness for C1 at a concrete two-column dataset with one data row. -/
theorem populate_shape_witness :
    (add_worksheet "Vendas" ⟨["regiao", "valor"], [[Value.str "Norte", Value.int 100]]⟩).grid.length = 2 ∧
    (add_worksheet "Vendas" ⟨["regiao", "valor"], [[Value.str "Norte", Value.int 100]]⟩).grid.map
      (fun row => row.map Cell.value) =
      [[Value.str "regiao", Value.str "valor"], [Value.str "Norte", Value.int 100]] := by
  have h := populate_shape "Vendas" ⟨["regiao", "valor"], [[Value.str "Norte", Value.int 100]]⟩
    (by intro r hr; simp at hr; subst hr; rfl)
  exact ⟨h.1, h.2.2⟩

/-- Styling never changes a cell's value. -/
@[simp] theorem styleCell_value (f : CellStyle → CellStyle) (c : Cell) :
    (styleCell f c).value = c.value := rfl

/-- Bordering twice is the same as bordering once. -/
theorem cellBB (c : Cell) :
    styleCell borderStyle (styleCell borderStyle c) = styleCell borderStyle c := rfl

/-- Header-styling then bordering is idempotent on a cell. -/
theorem cellHB (c : Cell) :
    styleCell borderStyle (styleCell headerStyle
      (styleCell borderStyle (styleCell headerStyle c))) =
      styleCell borderStyle (styleCell headerStyle c) := rfl

/-- Applying the formatter's grid passes twice gives the same grid as once. -/
theorem borderAll_styleHeaderRow_idem (g : List (List Cell)) :
    borderAll (styleHeaderRow (borderAll (styleHeaderRow g))) =
      borderAll (styleHeaderRow g) := by
  cases g with
  | nil => rfl
  | cons r rs =>
    simp [styleHeaderRow, borderAll, List.map_map, Function.comp_def, cellHB, cellBB]

/-- Bordering does not change the grid's values. -/
theorem gridVals_borderAll (g : List (List Cell)) :
    gridVals (borderAll g) = gridVals g := by
  simp [gridVals, borderAll, List.map_map, Function.comp_def]

/-- Header styling does not change the grid's values. -/
theorem gridVals_styleHeaderRow (g : List (List Cell)) :
    gridVals (styleHeaderRow g) = gridVals g := by
  cases g <;> simp [gridVals, styleHeaderRow, List.map_map, Function.comp_def]

/-- C5. `format_worksheet` is idempotent: formatting an already formatted
sheet changes nothing — header styling, borders and column widths all reach
a fixed point after one application. -/
theorem format_idempotent (ws : Worksheet) :
    format_worksheet (format_worksheet ws) = format_worksheet ws := by
  simp only [format_worksheet, borderAll_styleHeaderRow_idem,
    gridVals_styleHeaderRow, gridVals_borderAll]

/-- The values of a freshly populated sheet are the header labels followed by
the data rows. -/
theorem gridVals_add_worksheet (name : String) (D : Dataset) :
    gridVals (add_worksheet name D).grid = (D.columns.map Value.str) :: D.rows := by
  simp [gridVals, add_worksheet, List.map_map, Function.comp_def, plainCell, List.map_id]

/-- Looking up key `j + 1` in the width table built over `range' s n`
returns the `j`-th width when `s ≤ j < s + n`. -/
theorem find?_width_range' (w : Nat → Nat) (n : Nat) :
    ∀ s j : Nat, s ≤ j → j < s + n →
    ((List.range' s n).map (fun i => (i + 1, w i))).find? (fun p => p.1 == j + 1) =
      some (j + 1, w j) := by
  induction n with
  | zero => intro s j h1 h2; omega
  | succ n ih =>
    intro s j h1 h2
    rw [List.range'_succ]
    simp only [List.map_cons, List.find?_cons]
    by_cases hsj : s = j
    · subst hsj
      simp
    · have : ¬ (s + 1 == j + 1) = true := by simp; omega
      simp only [this]
      exact ih (s + 1) j (by omega) (by omega)

/-- The width loop covers at least every declared column: the header row
alone already spans `D.columns.length` columns. -/
theorem numColsV_populated (D : Dataset) :
    D.columns.length ≤ numColsV ((D.columns.map Value.str) :: D.rows) := by
  simp only [numColsV, List.foldr_cons, List.length_map]
  omega

/-- The column maximum over header plus data cells splits into the header
label's length versus the data cells' maximum. -/
theorem colMaxLen_populated (D : Dataset) (j : Nat) (hj : j < D.columns.length) :
    colMaxLen ((D.columns.map Value.str) :: D.rows) j =
      max (D.columns.getD j "").length (colMaxLen D.rows j) := by
  simp only [colMaxLen, colCellsV, List.filterMap_cons]
  have hget : (D.columns.map Value.str).get? j = some (Value.str (D.columns.getD j "")) := by
    rw [List.get?_map]
    rw [List.getD_eq_getElem?_getD]
    cases h : D.columns.get? j with
    | none => exact absurd (List.get?_eq_none.mp h) (by omega)
    | some c => simp [List.get?_eq_getElem?] at h ⊢; simp [h]
  rw [hget]
  simp [valLen, pyStrLen]

/-- C4 (amended). After formatting a populated sheet, every declared
column's width is exactly `min(max(header length, longest stringified data
cell length) + 2, 50)`; it never falls below `min(header length, 50)` (the
cap of 50 can undercut a header longer than 50 characters, which is what the
counterexample exhibits); an unstringifiable (`blob`) cell counts as length
0 via `valLen`, yet every cell — `blob` included — receives the thin
border, and formatting is a total function (it never aborts). -/
theorem width_policy (name : String) (D : Dataset) :
    (∀ j, j < D.columns.length →
      colWidth (format_worksheet (add_worksheet name D)) (j + 1) =
        some (min (max (D.columns.getD j "").length (colMaxLen D.rows j) + 2) 50) ∧
      min (D.columns.getD j "").length 50 ≤
        min (max (D.columns.getD j "").length (colMaxLen D.rows j) + 2) 50) ∧
    (∀ row ∈ (format_worksheet (add_worksheet name D)).grid, ∀ c ∈ row,
      c.style.border = true) := by
  constructor
  · intro j hj
    constructor
    · have hvals : gridVals (styleHeaderRow (add_worksheet name D).grid) =
          (D.columns.map Value.str) :: D.rows := by
        rw [gridVals_styleHeaderRow, gridVals_add_worksheet]
      simp only [colWidth, format_worksheet, computeWidths, hvals]
      rw [List.range_eq_range']
      rw [find?_width_range' _ _ 0 j (Nat.zero_le j)
        (by simpa using Nat.lt_of_lt_of_le hj (numColsV_populated D))]
      simp [colMaxLen_populated D j hj]
    · omega
  · intro row hrow c hc
    simp only [format_worksheet, borderAll, List.mem_map] at hrow
    obtain ⟨row0, _, rfl⟩ := hrow
    simp only [List.mem_map] at hc
    obtain ⟨c0, _, rfl⟩ := hc
    rfl

/-- Witness for C4 at a concrete dataset: header `"descricao"` (9 chars),
one data cell of 4 chars and one `blob` cell — the width is
`min(max(9, 4) + 2, 50) = 11` and every cell is bordered. -/
theorem width_policy_witness :
    colWidth (format_worksheet (add_worksheet "S"
        ⟨["descricao"], [[Value.str "abcd"], [Value.blob]]⟩)) 1 = some 11 ∧
    (∀ row ∈ (format_worksheet (add_worksheet "S"
        ⟨["descricao"], [[Value.str "abcd"], [Value.blob]]⟩)).grid, ∀ c ∈ row,
      c.style.border = true) := by
  have h := width_policy "S" ⟨["descricao"], [[Value.str "abcd"], [Value.blob]]⟩
  refine ⟨?_, h.2⟩
  have h1 := (h.1 0 (by decide)).1
  simpa using h1

/-- Characters with equal code points are equal. -/
theorem char_eq_of_toNat_eq {a b : Char} (h : a.toNat = b.toNat) : a = b :=
  Char.ext_iff.mpr (UInt32.ext_iff.mpr h)

/-- `charListLt` is transitive. -/
theorem charListLt_trans (a : List Char) : ∀ b c : List Char,
    charListLt a b = true → charListLt b c = true → charListLt a c = true := by
  induction a with
  | nil =>
    intro b c _ hbc
    cases c with
    | nil => cases b <;> simp [charListLt] at hbc
    | cons z zs => simp [charListLt]
  | cons x xs ih =>
    intro b c hab hbc
    cases b with
    | nil => simp [charListLt] at hab
    | cons y ys =>
      cases c with
      | nil => simp [charListLt] at hbc
      | cons z zs =>
        simp only [charListLt] at hab hbc ⊢
        by_cases h1 : x.toNat < y.toNat <;> by_cases h2 : y.toNat < x.toNat <;>
          by_cases h3 : y.toNat < z.toNat <;> by_cases h4 : z.toNat < y.toNat <;>
          by_cases h5 : x.toNat < z.toNat <;> by_cases h6 : z.toNat < x.toNat <;>
          simp only [h1, h2, h3, h4, h5, h6, if_true, if_false, if_pos, if_neg,
            not_false_iff, ite_true, ite_false] at hab hbc ⊢ <;>
          first
          | rfl
          | omega
          | exact Bool.noConfusion hab
          | exact Bool.noConfusion hbc
          | exact ih ys zs hab hbc
          | simp_all

/-- Lists that are mutually not-less are equal. -/
theorem charListLt_connex (a : List Char) : ∀ b : List Char,
    charListLt a b = false → charListLt b a = false → a = b := by
  induction a with
  | nil =>
    intro b hab _
    cases b with
    | nil => rfl
    | cons y ys => simp [charListLt] at hab
  | cons x xs ih =>
    intro b hab hba
    cases b with
    | nil => simp [charListLt] at hba
    | cons y ys =>
      simp only [charListLt] at hab hba
      by_cases h1 : x.toNat < y.toNat <;> by_cases h2 : y.toNat < x.toNat <;>
        simp only [h1, h2, if_true, if_false, ite_true, ite_false] at hab hba
      · omega
      · exact absurd hab (by simp)
      · exact absurd hba (by simp)
      · have hxy : x = y := char_eq_of_toNat_eq (by omega)
        rw [hxy, ih ys hab hba]

/-- `valueLtB` is irreflexive. -/
theorem valueLtB_irrefl (a : Value) : valueLtB a a = false := by
  cases a <;> simp [valueLtB, valueTag] <;> try omega
  case str s =>
    show charListLt s.data s.data = false
    induction s.data with
    | nil => rfl
    | cons c cs ih => simp [charListLt, ih]

/-- `valueLtB` is transitive. -/
theorem valueLtB_trans (a b c : Value) (hab : valueLtB a b = true)
    (hbc : valueLtB b c = true) : valueLtB a c = true := by
  cases a <;> cases b <;> cases c <;>
    simp only [valueLtB, valueTag, strLtB, decide_eq_true_eq] at hab hbc ⊢ <;>
    first
    | omega
    | exact charListLt_trans _ _ _ hab hbc
    | (exact absurd hab (by simp))
    | (exact absurd hbc (by simp))

/-- Values that are mutually not-less are equal (`valueLtB` is connex). -/
theorem valueLtB_connex (a b : Value) (hab : valueLtB a b = false)
    (hba : valueLtB b a = false) : a = b := by
  cases a <;> cases b <;>
    simp only [valueLtB, valueTag, strLtB, decide_eq_false_iff_not] at hab hba <;>
    try (first | rfl | omega)
  case int.int m n => exact congrArg Value.int (by omega)
  case str.str s t =>
    have hd : s.data = t.data :=
      charListLt_connex s.data t.data (by simpa using hab) (by simpa using hba)
    exact congrArg Value.str (String.ext hd)
  case date.date y1 m1 d1 y2 m2 d2 =>
    have hy : y1 = y2 := by omega
    have hm : m1 = m2 := by omega
    have hd : d1 = d2 := by omega
    rw [hy, hm, hd]

/-- `valueLtB` is asymmetric. -/
theorem valueLtB_asymm (a b : Value) (h : valueLtB a b = true) :
    valueLtB b a = false := by
  by_contra hc
  have hba : valueLtB b a = true := by
    cases hx : valueLtB b a with
    | true => rfl
    | false => exact absurd hx hc
  have h2 := valueLtB_trans a b a h hba
  rw [valueLtB_irrefl] at h2
  exact Bool.noConfusion h2

/-- `valueLeB` is total. -/
theorem valueLeB_total (a b : Value) :
    valueLeB a b = true ∨ valueLeB b a = true := by
  by_cases h : valueLtB b a = true
  · right
    simp [valueLeB, valueLtB_asymm b a h]
  · left
    simp [valueLeB]
    exact Bool.eq_false_iff.mpr h

/-- `valueLeB` is transitive. -/
theorem valueLeB_trans (a b c : Value) (hab : valueLeB a b = true)
    (hbc : valueLeB b c = true) : valueLeB a c = true := by
  simp only [valueLeB, Bool.not_eq_true'] at hab hbc ⊢
  by_contra hc
  have hca : valueLtB c a = true := by
    cases hx : valueLtB c a with
    | true => rfl
    | false => exact absurd hx (by simpa using hc)
  by_cases hcb : valueLtB c b = true
  · rw [hcb] at hbc; exact Bool.noConfusion hbc
  · by_cases hbc2 : valueLtB b c = true
    · have hba := valueLtB_trans b c a hbc2 hca
      rw [hba] at hab
      exact Bool.noConfusion hab
    · have hbceq : b = c := valueLtB_connex b c
        (Bool.eq_false_iff.mpr hbc2) (Bool.eq_false_iff.mpr hcb)
      subst hbceq
      rw [hca] at hab
      exact Bool.noConfusion hab

/-- Membership through stable insertion. -/
theorem mem_insLe {α : Type _} (le : α → α → Bool) (x : α) (l : List α) (z : α) :
    z ∈ insLe le x l ↔ z = x ∨ z ∈ l := by
  induction l with
  | nil => simp [insLe]
  | cons y ys ih =>
    simp only [insLe]
    by_cases h : le x y = true
    · rw [if_pos h]; simp
    · rw [if_neg h]
      simp only [List.mem_cons, ih]
      tauto

/-- Membership through stable sorting. -/
theorem mem_sortLe {α : Type _} (le : α → α → Bool) (l : List α) (z : α) :
    z ∈ sortLe le l ↔ z ∈ l := by
  induction l with
  | nil => simp [sortLe]
  | cons x xs ih =>
    simp only [sortLe, mem_insLe, ih, List.mem_cons]

/-- Stable insertion permutes cons. -/
theorem insLe_perm {α : Type _} (le : α → α → Bool) (x : α) (l : List α) :
    List.Perm (insLe le x l) (x :: l) := by
  induction l with
  | nil => simp [insLe]
  | cons y ys ih =>
    simp only [insLe]
    by_cases h : le x y = true
    · rw [if_pos h]
    · rw [if_neg h]
      exact (ih.cons y).trans (List.Perm.swap x y ys)

/-- Stable sorting permutes its input. -/
theorem sortLe_perm {α : Type _} (le : α → α → Bool) (l : List α) :
    List.Perm (sortLe le l) l := by
  induction l with
  | nil => simp [sortLe]
  | cons x xs ih =>
    exact (insLe_perm le x (sortLe le xs)).trans (ih.cons x)

/-- Inserting an element that `R`-precedes everything in an
already-`stableLe`-sorted list keeps the list sorted. -/
theorem insLe_pairwise {α : Type _} (le : α → α → Bool) (R : α → α → Prop)
    (htot : ∀ a b, le a b = true ∨ le b a = true)
    (htrans : ∀ a b c, le a b = true → le b c = true → le a c = true)
    (x : α) (l : List α)
    (hx : ∀ y ∈ l, R x y)
    (hl : l.Pairwise (stableLe le R)) :
    (insLe le x l).Pairwise (stableLe le R) := by
  induction l with
  | nil => simp [insLe, stableLe]
  | cons y ys ih =>
    rcases List.pairwise_cons.mp hl with ⟨hy, hys⟩
    simp only [insLe]
    by_cases h : le x y = true
    · rw [if_pos h]
      refine List.pairwise_cons.mpr ⟨?_, hl⟩
      intro z hz
      rcases List.mem_cons.mp hz with rfl | hz'
      · exact ⟨h, fun _ => hx z (List.mem_cons_self z ys)⟩
      · exact ⟨htrans x y z h (hy z hz').1,
          fun _ => hx z (List.mem_cons_of_mem y hz')⟩
    · rw [if_neg h]
      refine List.pairwise_cons.mpr
        ⟨?_, ih (fun z hz => hx z (List.mem_cons_of_mem y hz)) hys⟩
      intro z hz
      rcases (mem_insLe le x ys z).mp hz with rfl | hz'
      · rcases htot z y with h' | h'
        · exact absurd h' h
        · exact ⟨h', fun hzy => absurd hzy h⟩
      · exact hy z hz'

/-- Stable sorting an input that is `Pairwise R` yields a `stableLe`-sorted
output: consecutive elements are `le`-ordered and ties keep `R`. -/
theorem sortLe_pairwise {α : Type _} (le : α → α → Bool) (R : α → α → Prop)
    (htot : ∀ a b, le a b = true ∨ le b a = true)
    (htrans : ∀ a b c, le a b = true → le b c = true → le a c = true)
    (l : List α) (hl : l.Pairwise R) :
    (sortLe le l).Pairwise (stableLe le R) := by
  induction l with
  | nil => simp [sortLe]
  | cons x xs ih =>
    rcases List.pairwise_cons.mp hl with ⟨hx, hxs⟩
    exact insLe_pairwise le R htot htrans x (sortLe le xs)
      (fun y hy => hx y ((mem_sortLe le xs y).mp hy)) (ih hxs)

/-- `valDesc` is total. -/
theorem valDesc_total (a b : Value × Int) :
    valDesc a b = true ∨ valDesc b a = true := by
  simp only [valDesc, decide_eq_true_eq]
  omega

/-- `valDesc` is transitive. -/
theorem valDesc_trans (a b c : Value × Int) (hab : valDesc a b = true)
    (hbc : valDesc b c = true) : valDesc a c = true := by
  simp only [valDesc, decide_eq_true_eq] at hab hbc ⊢
  omega

/-- C2 (amended). `get_top_performers` returns the empty result — never an
error — when either column is absent; otherwise it returns at most `top_n`
pairs, each pairing a non-null group key occurring in the data with the sum
of the value column over that key's rows, sorted descending by summed value
with ties broken by ASCENDING group key (the order `groupby(sort=True)`
gives the series that `nlargest(keep='first')` then scans), not by first
encounter in the data. -/
theorem top_performers_spec (D : Dataset) (g v : String) (n : Nat) :
    (¬ (g ∈ D.columns ∧ v ∈ D.columns) → get_top_performers D g v n = []) ∧
    (get_top_performers D g v n).length ≤ n ∧
    (∀ p ∈ get_top_performers D g v n,
        p.2 = groupSum D g v p.1 ∧ p.1 ∈ D.rows.map (rowKey D g) ∧ p.1 ≠ Value.null) ∧
    (get_top_performers D g v n).Pairwise
      (fun a b => b.2 ≤ a.2 ∧
        (a.2 ≤ b.2 → (valueLeB a.1 b.1 = true ∧ a.1 ≠ b.1))) := by
  by_cases hmem : g ∈ D.columns ∧ v ∈ D.columns
  · have hunf : get_top_performers D g v n =
        (sortLe valDesc ((sortLe valueLeB
            (((D.rows.map (rowKey D g)).filter (fun k => !(k == Value.null))).dedup)).map
          (fun k => (k, groupSum D g v k)))).take n := by
      simp only [get_top_performers, if_pos hmem]
    refine ⟨fun hc => absurd hmem hc, ?_, ?_, ?_⟩
    · rw [hunf, List.length_take]
      exact Nat.min_le_left _ _
    · intro p hp
      rw [hunf] at hp
      have hp2 := (mem_sortLe valDesc _ p).mp (List.mem_of_mem_take hp)
      obtain ⟨k, hk, rfl⟩ := List.mem_map.mp hp2
      have hk2 := (List.mem_dedup).mp ((mem_sortLe valueLeB _ k).mp hk)
      have hk3 := List.mem_filter.mp hk2
      refine ⟨rfl, hk3.1, ?_⟩
      have := hk3.2
      simpa using this
    · rw [hunf]
      have hkeys : (((D.rows.map (rowKey D g)).filter
          (fun k => !(k == Value.null))).dedup).Nodup := List.nodup_dedup _
      have hsorted := sortLe_pairwise valueLeB (fun a b => a ≠ b)
        valueLeB_total valueLeB_trans _ hkeys
      have hnodup : (sortLe valueLeB
          (((D.rows.map (rowKey D g)).filter (fun k => !(k == Value.null))).dedup)).Nodup :=
        (sortLe_perm valueLeB _).symm.nodup hkeys
      have hC : (sortLe valueLeB
          (((D.rows.map (rowKey D g)).filter (fun k => !(k == Value.null))).dedup)).Pairwise
          (fun a b => valueLeB a b = true ∧ a ≠ b) :=
        (hsorted.imp (fun h => h.1)).and hnodup
      have hsums : ((sortLe valueLeB
          (((D.rows.map (rowKey D g)).filter (fun k => !(k == Value.null))).dedup)).map
            (fun k => (k, groupSum D g v k))).Pairwise
          (fun a b : Value × Int => valueLeB a.1 b.1 = true ∧ a.1 ≠ b.1) := by
        rw [List.pairwise_map]
        exact hC.imp (fun h => by simpa using h)
      have hfin := sortLe_pairwise valDesc
        (fun a b : Value × Int => valueLeB a.1 b.1 = true ∧ a.1 ≠ b.1)
        valDesc_total valDesc_trans _ hsums
      refine ((hfin.sublist (List.take_sublist n _)).imp ?_)
      intro a b h
      rcases h with ⟨h1, h2⟩
      refine ⟨by simpa [valDesc] using h1, fun hle => h2 (by simp [valDesc, hle])⟩
  · have he : get_top_performers D g v n = [] := by
      simp only [get_top_performers, if_neg hmem]
    exact ⟨fun _ => he, by simp [he], by simp [he], by rw [he]; exact List.Pairwise.nil⟩

/-- Witness for C2 at the spec's own scenario: grouping [("North",100),
("South",50),("North",25)] by region and summing amounts yields
[("North",125),("South",50)], within the requested bound of 5. -/
theorem top_performers_spec_witness :
    get_top_performers scenarioRanking "region" "amount" 5 =
      [(Value.str "North", 125), (Value.str "South", 50)] ∧
    (get_top_performers scenarioRanking "region" "amount" 5).length ≤ 5 := by
  constructor
  · rfl
  · exact (top_performers_spec scenarioRanking "region" "amount" 5).2.1

/-- C2 counterexample: on rows [("B",10),("A",10)] the first-encountered
group key among the tied sums is "B", so the claimed first-encounter
tie-break would return [("B",10)] for `top_n = 1`; the code instead returns
[("A",10)], because `groupby` sorts the keys and `nlargest(keep='first')`
resolves ties in that sorted order. -/
theorem top_performers_tie_counterexample :
    (tieRanking.rows.map (rowKey tieRanking "region") =
      [Value.str "B", Value.str "A"]) ∧
    get_top_performers tieRanking "region" "amount" 1 = [(Value.str "A", 10)] ∧
    get_top_performers tieRanking "region" "amount" 1 ≠ [(Value.str "B", 10)] := by
  refine ⟨rfl, rfl, ?_⟩
  decide

/-- C4 counterexample: with a 51-character header label and no data rows,
the computed width is `min(51 + 2, 50) = 50`, which is strictly below the
header label's own length — the claim's "never falls below the column's
header label length" fails once the cap of 50 bites. -/
theorem width_cap_undercuts_header :
    colWidth (format_worksheet (add_worksheet "S"
        ⟨["aaaaaaaaaaaaaaaaaaaaaaaaaaaaaaaaaaaaaaaaaaaaaaaaaaa"], []⟩)) 1 = some 50 ∧
    50 < ("aaaaaaaaaaaaaaaaaaaaaaaaaaaaaaaaaaaaaaaaaaaaaaaaaaa" : String).length := by
  constructor
  · rfl
  · decide

/-- A nonempty list has a minimum. -/
theorem minNat?_eq_none (l : List Nat) : minNat? l = none ↔ l = [] := by
  cases l with
  | nil => simp [minNat?]
  | cons x xs => cases h : minNat? xs <;> simp [minNat?, h]

/-- The minimum is a member. -/
theorem minNat?_mem (l : List Nat) : ∀ m, minNat? l = some m → m ∈ l := by
  induction l with
  | nil => intro m h; simp [minNat?] at h
  | cons x xs ih =>
    intro m h
    simp only [minNat?] at h
    cases hx : minNat? xs with
    | none =>
      rw [hx] at h
      simp only [Option.some.injEq] at h
      subst h
      exact List.mem_cons_self x xs
    | some m2 =>
      rw [hx] at h
      simp only [Option.some.injEq] at h
      subst h
      rcases Nat.le_total x m2 with hc | hc
      · rw [Nat.min_eq_left hc]; exact List.mem_cons_self x xs
      · rw [Nat.min_eq_right hc]; exact List.mem_cons_of_mem x (ih m2 hx)

/-- The minimum lower-bounds every member. -/
theorem minNat?_le (l : List Nat) : ∀ m, minNat? l = some m → ∀ x ∈ l, m ≤ x := by
  induction l with
  | nil => intro m h; simp [minNat?] at h
  | cons y ys ih =>
    intro m h x hx
    simp only [minNat?] at h
    rcases List.mem_cons.mp hx with rfl | hx'
    · cases hy : minNat? ys with
      | none => rw [hy] at h; simp only [Option.some.injEq] at h; omega
      | some m2 =>
        rw [hy] at h; simp only [Option.some.injEq] at h
        subst h; exact Nat.min_le_left x m2
    · cases hy : minNat? ys with
      | none => rw [hy] at h; rw [(minNat?_eq_none ys).mp hy] at hx'; cases hx'
      | some m2 =>
        rw [hy] at h; simp only [Option.some.injEq] at h
        subst h
        exact le_trans (Nat.min_le_right y m2) (ih m2 hy x hx')

/-- A nonempty list has a maximum. -/
theorem maxNat?_eq_none (l : List Nat) : maxNat? l = none ↔ l = [] := by
  cases l with
  | nil => simp [maxNat?]
  | cons x xs => cases h : maxNat? xs <;> simp [maxNat?, h]

/-- The maximum is a member. -/
theorem maxNat?_mem (l : List Nat) : ∀ m, maxNat? l = some m → m ∈ l := by
  induction l with
  | nil => intro m h; simp [maxNat?] at h
  | cons x xs ih =>
    intro m h
    simp only [maxNat?] at h
    cases hx : maxNat? xs with
    | none =>
      rw [hx] at h
      simp only [Option.some.injEq] at h
      subst h
      exact List.mem_cons_self x xs
    | some m2 =>
      rw [hx] at h
      simp only [Option.some.injEq] at h
      subst h
      rcases Nat.le_total x m2 with hc | hc
      · rw [Nat.max_eq_right hc]; exact List.mem_cons_of_mem x (ih m2 hx)
      · rw [Nat.max_eq_left hc]; exact List.mem_cons_self x xs

/-- The maximum upper-bounds every member. -/
theorem maxNat?_ge (l : List Nat) : ∀ m, maxNat? l = some m → ∀ x ∈ l, x ≤ m := by
  induction l with
  | nil => intro m h; simp [maxNat?] at h
  | cons y ys ih =>
    intro m h x hx
    simp only [maxNat?] at h
    rcases List.mem_cons.mp hx with rfl | hx'
    · cases hy : maxNat? ys with
      | none => rw [hy] at h; simp only [Option.some.injEq] at h; omega
      | some m2 =>
        rw [hy] at h; simp only [Option.some.injEq] at h
        subst h; exact Nat.le_max_left x m2
    · cases hy : maxNat? ys with
      | none => rw [hy] at h; rw [(maxNat?_eq_none ys).mp hy] at hx'; cases hx'
      | some m2 =>
        rw [hy] at h; simp only [Option.some.injEq] at h
        subst h
        exact le_trans (ih m2 hy x hx') (Nat.le_max_right y m2)

/-- `growthTail` keeps the bucket labels. -/
theorem growthTail_map_fst (l : List (Nat × Int)) : ∀ prev : Int,
    (growthTail prev l).map (fun e => e.1) = l.map (fun p => p.1) := by
  induction l with
  | nil => intro prev; rfl
  | cons p rest ih =>
    intro prev
    cases p with
    | mk m s => simp [growthTail, ih s]

/-- `withGrowth` keeps the bucket labels. -/
theorem withGrowth_map_fst (l : List (Nat × Int)) :
    (withGrowth l).map (fun e => e.1) = l.map (fun p => p.1) := by
  cases l with
  | nil => rfl
  | cons p rest =>
    cases p with
    | mk m s => simp [withGrowth, growthTail_map_fst rest s]

/-- Entries of `growthTail` come from the input buckets. -/
theorem mem_growthTail (l : List (Nat × Int)) : ∀ (prev : Int) (e : Nat × Int × Option Rat),
    e ∈ growthTail prev l → (e.1, e.2.1) ∈ l := by
  induction l with
  | nil => intro prev e h; simp [growthTail] at h
  | cons p rest ih =>
    intro prev e h
    cases p with
    | mk m s =>
      simp only [growthTail, List.mem_cons] at h
      rcases h with rfl | h
      · simp
      · exact List.mem_cons_of_mem _ (ih s e h)

/-- Entries of `withGrowth` come from the input buckets. -/
theorem mem_withGrowth (l : List (Nat × Int)) (e : Nat × Int × Option Rat)
    (h : e ∈ withGrowth l) : (e.1, e.2.1) ∈ l := by
  cases l with
  | nil => simp [withGrowth] at h
  | cons p rest =>
    cases p with
    | mk m s =>
      simp only [withGrowth, List.mem_cons] at h
      rcases h with rfl | h
      · simp
      · exact List.mem_cons_of_mem _ (mem_growthTail rest s e h)

/-- Every `growthTail` entry carries an actual growth rate. -/
theorem growthTail_isSome (l : List (Nat × Int)) : ∀ (prev : Int)
    (e : Nat × Int × Option Rat), e ∈ growthTail prev l → e.2.2.isSome = true := by
  induction l with
  | nil => intro prev e h; simp [growthTail] at h
  | cons p rest ih =>
    intro prev e h
    cases p with
    | mk m s =>
      simp only [growthTail, List.mem_cons] at h
      rcases h with rfl | h
      · rfl
      · exact ih s e h

/-- The first `withGrowth` entry has a null growth rate. -/
theorem withGrowth_head_none (l : List (Nat × Int)) (e : Nat × Int × Option Rat)
    (h : e ∈ (withGrowth l).head?) : e.2.2 = none := by
  cases l with
  | nil => simp [withGrowth] at h
  | cons p rest =>
    cases p with
    | mk m s =>
      simp only [withGrowth, List.head?_cons, Option.mem_def, Option.some.injEq] at h
      subst h
      rfl

/-- Every `withGrowth` entry after the first carries an actual rate. -/
theorem withGrowth_tail_isSome (l : List (Nat × Int)) (e : Nat × Int × Option Rat)
    (h : e ∈ (withGrowth l).tail) : e.2.2.isSome = true := by
  cases l with
  | nil => simp [withGrowth] at h
  | cons p rest =>
    cases p with
    | mk m s => exact growthTail_isSome rest s e h

/-- `range'` is a chain of consecutive naturals. -/
theorem chain'_succ_range' : ∀ (n s : Nat),
    List.Chain' (fun a b => b = a + 1) (List.range' s n) := by
  intro n
  induction n with
  | zero => intro s; simp
  | succ n ih =>
    intro s
    show List.Chain' (fun a b => b = a + 1) (s :: List.range' (s + 1) n)
    refine List.chain'_cons'.mpr ⟨?_, ih (s + 1)⟩
    intro y hy
    cases n with
    | zero => simp at hy
    | succ n2 =>
      have : (List.range' (s + 1) (n2 + 1)).head? = some (s + 1) := rfl
      rw [this] at hy
      simp only [Option.mem_def, Option.some.injEq] at hy
      omega

/-- C3 (amended). `get_trend_analysis` returns the empty result when either
column is absent or no row carries a date; otherwise it produces one entry
per calendar month of the FULL SPAN from the earliest to the latest month
present in the data — months with no rows included, summing to 0 (the
`pd.Grouper(freq='M')` binning, like `resample`, fills interior gaps), not
merely the distinct months present — in chronological order (consecutive
month indices), each entry carrying the month's sum of the value column;
the first entry's growth rate is null and every later entry carries a
rate. -/
theorem trend_spec (D : Dataset) (d v : String) :
    (¬ (d ∈ D.columns ∧ v ∈ D.columns) → get_trend_analysis D d v = []) ∧
    (monthsPresent D d = [] → get_trend_analysis D d v = []) ∧
    List.Chain' (fun a b : Nat × Int × Option Rat => b.1 = a.1 + 1)
      (get_trend_analysis D d v) ∧
    (d ∈ D.columns → v ∈ D.columns → ∀ m : Nat,
      (m ∈ (get_trend_analysis D d v).map (fun e => e.1) ↔
        ((∃ m1 ∈ monthsPresent D d, m1 ≤ m) ∧ (∃ m2 ∈ monthsPresent D d, m ≤ m2)))) ∧
    (∀ e ∈ get_trend_analysis D d v, e.2.1 = monthSum D d v e.1) ∧
    (∀ e ∈ (get_trend_analysis D d v).head?, e.2.2 = none) ∧
    (∀ e ∈ (get_trend_analysis D d v).tail, e.2.2.isSome = true) := by
  by_cases hmem : d ∈ D.columns ∧ v ∈ D.columns
  · cases hlo : minNat? (monthsPresent D d) with
    | none =>
      have hmp : monthsPresent D d = [] := (minNat?_eq_none _).mp hlo
      have he : get_trend_analysis D d v = [] := by
        simp only [get_trend_analysis, if_pos hmem, hlo]
      refine ⟨fun hc => absurd hmem hc, fun _ => he, by simp [he], ?_,
        by simp [he], by simp [he], by simp [he]⟩
      intro _ _ m
      simp [he, hmp]
    | some lo =>
      cases hhi : maxNat? (monthsPresent D d) with
      | none =>
        rw [(maxNat?_eq_none _).mp hhi] at hlo
        simp [minNat?] at hlo
      | some hi =>
        have hunf : get_trend_analysis D d v =
            withGrowth ((List.range' lo (hi + 1 - lo)).map
              (fun m => (m, monthSum D d v m))) := by
          simp only [get_trend_analysis, if_pos hmem, hlo, hhi]
        have hlom := minNat?_mem _ lo hlo
        have hhim := maxNat?_mem _ hi hhi
        have hlole := minNat?_le _ lo hlo
        have hhige := maxNat?_ge _ hi hhi
        have hlohi : lo ≤ hi := hlole hi hhim
        have hfst : (get_trend_analysis D d v).map (fun e => e.1) =
            List.range' lo (hi + 1 - lo) := by
          rw [hunf, withGrowth_map_fst, List.map_map]
          simp [Function.comp_def]
        refine ⟨fun hc => absurd hmem hc, ?_, ?_, ?_, ?_, ?_, ?_⟩
        · intro hc
          rw [hc] at hlom
          cases hlom
        · have := (List.chain'_map (fun e : Nat × Int × Option Rat => e.1)).mp
            (by rw [hfst]; exact chain'_succ_range' (hi + 1 - lo) lo)
          exact this
        · intro _ _ m
          rw [hfst, List.mem_range'_1]
          constructor
          · intro hr
            exact ⟨⟨lo, hlom, hr.1⟩, ⟨hi, hhim, by omega⟩⟩
          · rintro ⟨⟨m1, hm1, hm1le⟩, ⟨m2, hm2, hm2le⟩⟩
            have h1 := hlole m1 hm1
            have h2 := hhige m2 hm2
            omega
        · intro e he
          rw [hunf] at he
          have hin := mem_withGrowth _ e he
          obtain ⟨m, _, hmeq⟩ := List.mem_map.mp hin
          have h1 : m = e.1 := congrArg Prod.fst hmeq
          have h2 : monthSum D d v m = e.2.1 := congrArg Prod.snd hmeq
          rw [← h2, h1]
        · intro e he
          rw [hunf] at he
          exact withGrowth_head_none _ e he
        · intro e he
          rw [hunf] at he
          exact withGrowth_tail_isSome _ e he
  · have he : get_trend_analysis D d v = [] := by
      simp only [get_trend_analysis, if_neg hmem]
    refine ⟨fun _ => he, fun _ => he, by simp [he], ?_,
      by simp [he], by simp [he], by simp [he]⟩
    intro hd hv
    exact absurd ⟨hd, hv⟩ hmem

/-- Witness for C3 at the spec's own scenario: months one and two with sums
100 and 150 give entries [(month1, 100, null), (month2, 150, 50%)], and the
first entry's growth is null by the theorem. -/
theorem trend_spec_witness :
    get_trend_analysis twoMonths "data" "valor" =
      [(24288, 100, none), (24289, 150, some 50)] ∧
    (∀ e ∈ (get_trend_analysis twoMonths "data" "valor").head?, e.2.2 = none) := by
  have h : get_trend_analysis twoMonths "data" "valor" =
      [(24288, 100, none),
       (24289, 150,
        some (((((150 : Int) : Rat) - ((100 : Int) : Rat)) / ((100 : Int) : Rat)) * 100))] := rfl
  refine ⟨?_, (trend_spec twoMonths "data" "valor").2.2.2.2.2.1⟩
  rw [h]
  norm_num

/-- C3 counterexample: with rows only in January and March 2024 (month
indices 24288 and 24290), the code produces THREE entries — one for the
empty February bucket (index 24289) as well — although only two distinct
calendar months are present in the data, refuting "exactly one entry per
distinct calendar month present". -/
theorem trend_gap_counterexample :
    (get_trend_analysis gapTrend "data" "valor").map (fun e => e.1) =
      [24288, 24289, 24290] ∧
    24289 ∉ monthsPresent gapTrend "data" ∧
    (get_trend_analysis gapTrend "data" "valor").length = 3 := by
  refine ⟨rfl, by decide, rfl⟩

/-- C6. `get_summary_stats` never raises for any Dataset — it is a total
function whose missing-field conditions degrade to empty fields: the total
record count is always present and equals the number of rows; both ends of
the date range are absent when the designated date column `'data'` is
missing; and the per-numeric-column block is empty exactly when the dataset
has no numeric columns. -/
theorem summary_stats_spec (D : Dataset) :
    (get_summary_stats D).total_records = D.rows.length ∧
    ("data" ∉ D.columns →
      (get_summary_stats D).date_start = none ∧
      (get_summary_stats D).date_end = none) ∧
    (numericColIdxs D = [] → (get_summary_stats D).numeric_summary = []) ∧
    (get_summary_stats D).numeric_summary.length = (numericColIdxs D).length := by
  refine ⟨rfl, ?_, ?_, ?_⟩
  · intro h
    constructor <;> simp [get_summary_stats, h]
  · intro h
    simp [get_summary_stats, h]
  · simp [get_summary_stats]

/-- Witness for C6 at a dataset with one string column and no `'data'`
column: the record count is 1 and both optional blocks are absent. -/
theorem summary_stats_spec_witness :
    (get_summary_stats ⟨["nome"], [[Value.str "x"]]⟩).total_records = 1 ∧
    (get_summary_stats ⟨["nome"], [[Value.str "x"]]⟩).date_start = none ∧
    (get_summary_stats ⟨["nome"], [[Value.str "x"]]⟩).numeric_summary = [] := by
  have h := summary_stats_spec ⟨["nome"], [[Value.str "x"]]⟩
  exact ⟨h.1, (h.2.1 (by decide)).1, h.2.2.1 (by decide)⟩

/-- C7 (amended). Chart binding is best-effort: calling it with an
unsupported kind (anything other than bar or line) is a no-op that leaves
the worksheet entirely unchanged and raises no error; a successfully bound
chart is appended with the sheet's cells untouched, but it is anchored at
the FIXED cell E2 — row 2, column 5 — independent of the data's extent,
an anchor that can coincide with populated cells rather than sitting two
rows below the header and one column right of the data. -/
theorem add_chart_spec (ws : Worksheet) (ct dr t : String) :
    (mkChartKind ct = none → add_chart ws ct dr t = ws) ∧
    (∀ k, mkChartKind ct = some k →
      (add_chart ws ct dr t).charts = ws.charts ++
        [{ kind := k, title := t, style := 10,
           data := { min_col := 1, min_row := 1, max_col := 2, max_row := wsMaxRow ws },
           titles_from_data := true, anchorRow := 2, anchorCol := 5 }] ∧
      (add_chart ws ct dr t).grid = ws.grid) := by
  constructor
  · intro h
    simp [add_chart, h]
  · intro k h
    constructor <;> simp [add_chart, h]

/-- Witness for C7: the unknown kind `"pie"` leaves the sheet unchanged,
while `"bar"` binds exactly one chart. -/
theorem add_chart_spec_witness :
    add_chart (add_worksheet "S" fiveColumns) "pie" "A1:B2" "T" =
      add_worksheet "S" fiveColumns ∧
    (add_chart (add_worksheet "S" fiveColumns) "bar" "A1:B2" "T").charts.length = 1 := by
  have h1 := (add_chart_spec (add_worksheet "S" fiveColumns) "pie" "A1:B2" "T").1 rfl
  have h2 := ((add_chart_spec (add_worksheet "S" fiveColumns) "bar" "A1:B2" "T").2
    ChartKind.bar rfl).1
  exact ⟨h1, by rw [h2]; rfl⟩

/-- C7 counterexample: on a five-column sheet with one data row, the bound
chart is anchored at E2 — row 2, column 5 — which IS a populated cell (the
data row spans columns 1 through 5), so the anchor overlaps populated
cells; it also is not "two rows below the header" (row 3), nor "one column
right of the data". -/
theorem add_chart_overlap_counterexample :
    (∀ c ∈ (add_chart (add_worksheet "S" fiveColumns) "bar" "A1:B2" "T").charts,
      c.anchorRow = 2 ∧ c.anchorCol = 5) ∧
    (add_chart (add_worksheet "S" fiveColumns) "bar" "A1:B2" "T").charts.length = 1 ∧
    populatedAt (add_worksheet "S" fiveColumns) 2 5 = true := by
  refine ⟨?_, rfl, rfl⟩
  decide

/-- C10. `add_chart` ignores its `data_range` argument entirely: two calls
differing only in `data_range` produce identical worksheets, and for a
supported kind the bound chart's source reference is always columns 1–2,
rows 1 through the sheet's last populated row, anchored at E2 (row 2,
column 5). -/
theorem add_chart_ignores_range (ws : Worksheet) (ct dr1 dr2 t : String) :
    add_chart ws ct dr1 t = add_chart ws ct dr2 t ∧
    (∀ k, mkChartKind ct = some k → ∃ c : Chart,
      (add_chart ws ct dr1 t).charts = ws.charts ++ [c] ∧
      c.data = { min_col := 1, min_row := 1, max_col := 2, max_row := wsMaxRow ws } ∧
      c.anchorRow = 2 ∧ c.anchorCol = 5) := by
  constructor
  · cases h : mkChartKind ct <;> simp [add_chart, h]
  · intro k h
    exact ⟨{ kind := k, title := t, style := 10,
             data := { min_col := 1, min_row := 1, max_col := 2, max_row := wsMaxRow ws },
             titles_from_data := true, anchorRow := 2, anchorCol := 5 },
           by simp [add_chart, h], rfl, rfl, rfl⟩

/-- Witness for C10: a bar chart bound with two different range strings
gives identical worksheets, with the source reference spanning columns 1–2
and rows 1–2 of the two-row sheet. -/
theorem add_chart_ignores_range_witness :
    add_chart (add_worksheet "S" fiveColumns) "bar" "A1:B2" "T" =
      add_chart (add_worksheet "S" fiveColumns) "bar" "Z9:Z99" "T" ∧
    (∀ c ∈ (add_chart (add_worksheet "S" fiveColumns) "bar" "A1:B2" "T").charts,
      c.data.max_row = 2 ∧ c.data.max_col = 2) := by
  refine ⟨(add_chart_ignores_range (add_worksheet "S" fiveColumns) "bar" "A1:B2" "Z9:Z99" "T").1, ?_⟩
  decide

/-- C8. The top-level generation call returns a plain boolean outcome —
its whole body sits in a `try/except` whose only exits are `return True`
and `return False`, so no exception propagates — and it reports success
exactly when the persistence step (the last step; nothing remains to run
after it) succeeds: any save failure surfaces as `false`, never as
success. -/
theorem generate_report_outcome (cfg : ReportConfig) (now : String)
    (save : Workbook → String → Except String Unit)
    (dd : List (String × Dataset)) :
    (generate_complete_report cfg now save dd = true ↔
      save (buildWorkbook cfg now dd) cfg.output_path = Except.ok ()) ∧
    (∀ e, save (buildWorkbook cfg now dd) cfg.output_path = Except.error e →
      generate_complete_report cfg now save dd = false) := by
  constructor
  · constructor
    · intro h
      cases hs : save (buildWorkbook cfg now dd) cfg.output_path with
      | ok u => cases u; rfl
      | error e =>
        unfold generate_complete_report at h
        rw [hs] at h
        cases h
    · intro h
      unfold generate_complete_report
      rw [h]
  · intro e h
    unfold generate_complete_report
    rw [h]

/-- Witness for C8: with a persistence stub that succeeds, generation
reports `true`; with one that fails ("unwritable path"), it reports
`false` — in both cases a plain boolean, no exception. -/
theorem generate_report_outcome_witness :
    generate_complete_report ⟨"T", "out.xlsx", true, true, true, "ACME"⟩
      "01/01/2024 10:00" (fun _ _ => Except.ok ()) [] = true ∧
    generate_complete_report ⟨"T", "out.xlsx", true, true, true, "ACME"⟩
      "01/01/2024 10:00" (fun _ _ => Except.error "unwritable path") [] = false := by
  constructor
  · exact (generate_report_outcome ⟨"T", "out.xlsx", true, true, true, "ACME"⟩
      "01/01/2024 10:00" (fun _ _ => Except.ok ()) []).1.mpr rfl
  · exact (generate_report_outcome ⟨"T", "out.xlsx", true, true, true, "ACME"⟩
      "01/01/2024 10:00" (fun _ _ => Except.error "unwritable path") []).2
      "unwritable path" rfl

/-- A data sheet keeps its supplied name, formatted or not. -/
theorem dataSheet_name (cfg : ReportConfig) (p : String × Dataset) :
    (if cfg.auto_format then format_worksheet (add_worksheet p.1 p.2)
     else add_worksheet p.1 p.2).name = p.1 := by
  by_cases h : cfg.auto_format = true <;>
    simp [h, format_worksheet, add_worksheet]

/-- The names of the data sheets are exactly the supplied sheet names, in
order. -/
theorem buildWorkbook_dataNames (cfg : ReportConfig)
    (dd : List (String × Dataset)) :
    ((dd.map (fun p =>
      if cfg.auto_format then format_worksheet (add_worksheet p.1 p.2)
      else add_worksheet p.1 p.2)).map Worksheet.name) = dd.map (fun p => p.1) := by
  rw [List.map_map]
  exact List.map_congr_left (fun p _ => dataSheet_name cfg p)

/-- The total-records line of the summary sheet sits at row 6, column 1 and
shows the analyzed dataset's row count. -/
theorem summary_total_cell (cfg : ReportConfig) (now : String) (D : Dataset) :
    cellValueAt (add_summary_sheet cfg now D) 6 1 =
      some (Value.str ("Total de Registros: " ++ toString D.rows.length)) := by
  simp only [add_summary_sheet]
  cases hs : (get_summary_stats D).date_start with
  | none =>
    cases ht : (get_summary_stats D).date_end with
    | none => rfl
    | some b => rfl
  | some a =>
    cases ht : (get_summary_stats D).date_end with
    | none => rfl
    | some b => rfl

/-- C9. The executive-summary sheet exists iff `includeSummary` is on and
at least one dataset was supplied; when present it is the last sheet,
built from the FIRST-supplied dataset (its total-records line shows that
dataset's row count); with an empty dataset mapping the workbook has no
sheets at all and generation still succeeds whenever persistence does. -/
theorem summary_sheet_spec (cfg : ReportConfig) (now : String)
    (save : Workbook → String → Except String Unit)
    (dd : List (String × Dataset)) :
    (buildWorkbook cfg now dd).sheets.length =
      dd.length + (if cfg.include_summary = true ∧ dd ≠ [] then 1 else 0) ∧
    ((∀ p ∈ dd, p.1 ≠ "Resumo Executivo") →
      (("Resumo Executivo" ∈ (buildWorkbook cfg now dd).sheets.map Worksheet.name) ↔
        (cfg.include_summary = true ∧ dd ≠ []))) ∧
    (∀ n0 d0 tl, dd = (n0, d0) :: tl → cfg.include_summary = true →
      (buildWorkbook cfg now dd).sheets.getLast? =
        some (add_summary_sheet cfg now d0) ∧
      cellValueAt (add_summary_sheet cfg now d0) 6 1 =
        some (Value.str ("Total de Registros: " ++ toString d0.rows.length))) ∧
    (dd = [] → (buildWorkbook cfg now dd).sheets = [] ∧
      (save (buildWorkbook cfg now dd) cfg.output_path = Except.ok () →
        generate_complete_report cfg now save dd = true)) := by
  refine ⟨?_, ?_, ?_, ?_⟩
  · cases dd with
    | nil => simp [buildWorkbook]
    | cons p tl =>
      cases p with
      | mk n0 d0 =>
        by_cases h : cfg.include_summary = true <;>
          simp [buildWorkbook, h]
  · intro hnone
    cases dd with
    | nil => simp [buildWorkbook]
    | cons p tl =>
      cases p with
      | mk n0 d0 =>
        by_cases h : cfg.include_summary = true
        · have hsheets : (buildWorkbook cfg now ((n0, d0) :: tl)).sheets =
              (((n0, d0) :: tl).map (fun p =>
                if cfg.auto_format then format_worksheet (add_worksheet p.1 p.2)
                else add_worksheet p.1 p.2)) ++ [add_summary_sheet cfg now d0] := by
            simp [buildWorkbook, h]
          rw [hsheets]
          constructor
          · intro _
            exact ⟨h, by simp⟩
          · intro _
            rw [List.map_append]
            apply List.mem_append.mpr
            right
            simp [add_summary_sheet, format_worksheet]
        · have hsheets : (buildWorkbook cfg now ((n0, d0) :: tl)).sheets =
              ((n0, d0) :: tl).map (fun p =>
                if cfg.auto_format then format_worksheet (add_worksheet p.1 p.2)
                else add_worksheet p.1 p.2) := by
            simp [buildWorkbook, h]
          rw [hsheets, buildWorkbook_dataNames cfg ((n0, d0) :: tl)]
          constructor
          · intro hmem
            obtain ⟨q, hq, hqe⟩ := List.mem_map.mp hmem
            exact absurd hqe (hnone q hq)
          · rintro ⟨hh, _⟩
            exact absurd hh h
  · intro n0 d0 tl hdd hs
    subst hdd
    constructor
    · simp only [buildWorkbook, hs, if_pos]
      exact List.getLast?_concat _
    · exact summary_total_cell cfg now d0
  · intro hdd
    subst hdd
    refine ⟨rfl, ?_⟩
    intro h
    unfold generate_complete_report
    rw [h]

/-- Witness for C9: with `includeSummary` on and one supplied dataset of 3
rows, the workbook has two sheets, the last being "Resumo Executivo" whose
total-records line reads 3; with an empty mapping and `includeSummary` on,
there is no sheet and generation succeeds. -/
theorem summary_sheet_spec_witness :
    (buildWorkbook ⟨"T", "out.xlsx", true, true, true, "ACME"⟩ "01/01/2024 10:00"
      [("Vendas", scenarioRanking)]).sheets.length = 2 ∧
    cellValueAt (add_summary_sheet ⟨"T", "out.xlsx", true, true, true, "ACME"⟩
        "01/01/2024 10:00" scenarioRanking) 6 1 =
      some (Value.str "Total de Registros: 3") ∧
    (buildWorkbook ⟨"T", "out.xlsx", true, true, true, "ACME"⟩ "01/01/2024 10:00"
      []).sheets = [] ∧
    generate_complete_report ⟨"T", "out.xlsx", true, true, true, "ACME"⟩
      "01/01/2024 10:00" (fun _ _ => Except.ok ()) [] = true := by
  have h1 := summary_sheet_spec ⟨"T", "out.xlsx", true, true, true, "ACME"⟩
    "01/01/2024 10:00" (fun _ _ => Except.ok ()) [("Vendas", scenarioRanking)]
  have h2 := summary_sheet_spec ⟨"T", "out.xlsx", true, true, true, "ACME"⟩
    "01/01/2024 10:00" (fun _ _ => Except.ok ()) []
  refine ⟨rfl, ?_, (h2.2.2.2 rfl).1, (h2.2.2.2 rfl).2 rfl⟩
  have h3 := (h1.2.2.1 "Vendas" scenarioRanking [] rfl rfl).2
  rw [h3]
  rfl

end ReportGen
